import Mathlib

/-!
Verification development for the SENSAI repository's resilient-generation
core: the retry-with-backoff wrappers, the markdown-fence stripping and JSON
parsing of remote responses, the static-fallback path, and the persistence
timestamps.  JavaScript strings are modelled as `String`/`List Char`,
JavaScript numbers appearing as integers (timestamps, delays, statuses) as
`Int`, `undefined` as `Option.none`, and thrown JS errors as the `JsError`
record carried in `Except`.
-/

/-- A thrown JavaScript error as the code inspects it: an optional numeric
`status` field (HTTP-like) and a `message` string. -/
structure JsError where
  status : Option Int
  message : String
deriving DecidableEq

/-- The whitespace characters shared by `String.prototype.trim` and the JSON
grammar over the ASCII inputs this system handles. -/
def isWsChar (c : Char) : Bool :=
  c == ' ' || c == '\t' || c == '\n' || c == '\r'

/-- Leading-whitespace removal (one side of `trim`). -/
def ltrim (cs : List Char) : List Char := cs.dropWhile isWsChar

/-- Trailing-whitespace removal (the other side of `trim`). -/
def rtrim (cs : List Char) : List Char := (cs.reverse.dropWhile isWsChar).reverse

/-- `String.prototype.trim` on the character list. -/
def trimL (cs : List Char) : List Char := ltrim (rtrim cs)

/-- `String.prototype.trim`. -/
def trimStr (s : String) : String := ⟨trimL s.data⟩

/-- `hay.includes(needle)` on character lists. -/
def includesL (hay needle : List Char) : Bool :=
  needle.isPrefixOf hay ||
    match hay with
    | [] => false
    | _ :: t => includesL t needle

/-- `String.prototype.includes`. -/
def includesStr (hay needle : String) : Bool := includesL hay.data needle.data

/-- The optional `json` tag after an opening triple backtick, as matched by
the regex `(?:json)?`. -/
def dropJsonTag : List Char → List Char
  | 'j' :: 's' :: 'o' :: 'n' :: rest => rest
  | cs => cs

/-- The optional newline after the fence, as matched by the regex `\n?`. -/
def dropNl : List Char → List Char
  | '\n' :: rest => rest
  | cs => cs

/-- The global replace `text.replace(/```(?:json)?\n?/g, "")`: scan left to
right, delete every fence match, copy everything else.  Fuelled by the input
length (every step consumes at least one character). -/
def stripGo : Nat → List Char → List Char
  | 0, cs => cs
  | _ + 1, [] => []
  | f + 1, '`' :: '`' :: '`' :: rest => stripGo f (dropNl (dropJsonTag rest))
  | f + 1, c :: rest => c :: stripGo f rest

/-- `text.replace(/```(?:json)?\n?/g, "")`. -/
def stripFences (s : String) : String := ⟨stripGo s.data.length s.data⟩

/-- The full response clean-up used by both generation paths:
`text.replace(/```(?:json)?\n?/g, "").trim()`. -/
def cleanText (s : String) : String := trimStr (stripFences s)

/-- Whether the character list contains three consecutive backticks (an
occurrence of the fence opener inside the text). -/
def tripleFree (cs : List Char) : Bool := !(includesL cs ['`', '`', '`'])

/-- The remote response wrapped in a markdown ```json fence. -/
def wrapJsonFence (t : String) : String := "```json\n" ++ t ++ "\n```"

/-- The JSON values `JSON.parse` produces.  JavaScript numbers are modelled
exactly as rationals (IEEE rounding is outside the model's scope). -/
inductive Json where
  | null
  | bool (b : Bool)
  | num (q : Rat)
  | str (s : String)
  | arr (elems : List Json)
  | obj (fields : List (String × Json))

/-- Leading JSON whitespace, skipped between tokens. -/
def skipWs (cs : List Char) : List Char := cs.dropWhile isWsChar

/-- One hexadecimal digit of a `\u` escape. -/
def hexDigit (c : Char) : Option Nat :=
  if '0' ≤ c ∧ c ≤ '9' then some (c.toNat - 48)
  else if 'a' ≤ c ∧ c ≤ 'f' then some (c.toNat - 87)
  else if 'A' ≤ c ∧ c ≤ 'F' then some (c.toNat - 55)
  else none

/-- The four hex digits of a `\u` escape. -/
def parseHex4 : List Char → Option (Nat × List Char)
  | a :: b :: c :: d :: rest =>
    match hexDigit a, hexDigit b, hexDigit c, hexDigit d with
    | some x, some y, some z, some w => some (((x * 16 + y) * 16 + z) * 16 + w, rest)
    | _, _, _, _ => none
  | _ => none

/-- JSON string body after the opening quote: ordinary characters (control
characters refused), the standard escapes and `\uXXXX`. -/
def parseStringBody : Nat → List Char → List Char → Option (String × List Char)
  | 0, _, _ => none
  | f + 1, cs, acc =>
    match cs with
    | [] => none
    | '"' :: rest => some (⟨acc.reverse⟩, rest)
    | '\\' :: esc =>
      match esc with
      | '"' :: r => parseStringBody f r ('"' :: acc)
      | '\\' :: r => parseStringBody f r ('\\' :: acc)
      | '/' :: r => parseStringBody f r ('/' :: acc)
      | 'b' :: r => parseStringBody f r ('\x08' :: acc)
      | 'f' :: r => parseStringBody f r ('\x0c' :: acc)
      | 'n' :: r => parseStringBody f r ('\n' :: acc)
      | 'r' :: r => parseStringBody f r ('\r' :: acc)
      | 't' :: r => parseStringBody f r ('\t' :: acc)
      | 'u' :: r =>
        match parseHex4 r with
        | some (n, r2) => parseStringBody f r2 (Char.ofNat n :: acc)
        | none => none
      | _ => none
    | c :: rest => if c.toNat < 32 then none else parseStringBody f rest (c :: acc)

/-- Decimal digits to their value. -/
def digitsToNat (ds : List Char) : Nat :=
  ds.foldl (fun acc c => acc * 10 + (c.toNat - 48)) 0

/-- Assemble a JSON number from sign, integer digits, fraction digits and
decimal exponent. -/
def mkNum (neg : Bool) (intDs fracDs : List Char) (exp : Int) : Json :=
  let base : Rat := (digitsToNat intDs : Rat) + (digitsToNat fracDs : Rat) / ((10 : Rat) ^ fracDs.length)
  let scaled : Rat :=
    if 0 ≤ exp then base * (10 : Rat) ^ exp.toNat else base / (10 : Rat) ^ (-exp).toNat
  .num (if neg then -scaled else scaled)

/-- The exponent digits (after `e`/`E` and an optional sign). -/
def parseExpDigits (neg : Bool) (intDs fracDs : List Char) (cs : List Char) :
    Option (Json × List Char) :=
  let (eneg, cs1) :=
    match cs with
    | '+' :: r => (false, r)
    | '-' :: r => (true, r)
    | _ => (false, cs)
  let eDs := cs1.takeWhile Char.isDigit
  let cs2 := cs1.dropWhile Char.isDigit
  if eDs.isEmpty then none
  else
    let e : Int := (digitsToNat eDs : Int)
    some (mkNum neg intDs fracDs (if eneg then -e else e), cs2)

/-- The optional exponent part of a JSON number. -/
def parseExpPart (neg : Bool) (intDs fracDs : List Char) (cs : List Char) :
    Option (Json × List Char) :=
  match cs with
  | 'e' :: r => parseExpDigits neg intDs fracDs r
  | 'E' :: r => parseExpDigits neg intDs fracDs r
  | _ => some (mkNum neg intDs fracDs 0, cs)

/-- A JSON number token: optional minus, integer part without a spurious
leading zero, optional fraction, optional exponent. -/
def parseNumberTok (cs : List Char) : Option (Json × List Char) :=
  let (neg, cs1) :=
    match cs with
    | '-' :: r => (true, r)
    | _ => (false, cs)
  let intDs := cs1.takeWhile Char.isDigit
  let cs2 := cs1.dropWhile Char.isDigit
  if intDs.isEmpty then none
  else if intDs.headD '0' == '0' && intDs.length > 1 then none
  else
    match cs2 with
    | '.' :: r =>
      let fracDs := r.takeWhile Char.isDigit
      let cs3 := r.dropWhile Char.isDigit
      if fracDs.isEmpty then none else parseExpPart neg intDs fracDs cs3
    | _ => parseExpPart neg intDs [] cs2

mutual

/-- One JSON value, fuelled recursive descent. -/
def parseValue : Nat → List Char → Option (Json × List Char)
  | 0, _ => none
  | f + 1, cs =>
    match cs with
    | 'n' :: 'u' :: 'l' :: 'l' :: rest => some (.null, rest)
    | 't' :: 'r' :: 'u' :: 'e' :: rest => some (.bool true, rest)
    | 'f' :: 'a' :: 'l' :: 's' :: 'e' :: rest => some (.bool false, rest)
    | '"' :: rest =>
      match parseStringBody f rest [] with
      | some (s, r) => some (.str s, r)
      | none => none
    | '[' :: rest =>
      match skipWs rest with
      | ']' :: r1 => some (.arr [], r1)
      | r0 =>
        match parseElements f r0 with
        | some (es, r1) => some (.arr es, r1)
        | none => none
    | '{' :: rest =>
      match skipWs rest with
      | '}' :: r1 => some (.obj [], r1)
      | r0 =>
        match parseMembers f r0 with
        | some (ms, r1) => some (.obj ms, r1)
        | none => none
    | _ => parseNumberTok cs

/-- Comma-separated array elements up to the closing bracket. -/
def parseElements : Nat → List Char → Option (List Json × List Char)
  | 0, _ => none
  | f + 1, cs =>
    match parseValue f cs with
    | none => none
    | some (v, rest) =>
      match skipWs rest with
      | ',' :: r2 =>
        match parseElements f (skipWs r2) with
        | some (vs, r3) => some (v :: vs, r3)
        | none => none
      | ']' :: r2 => some ([v], r2)
      | _ => none

/-- Comma-separated object members up to the closing brace. -/
def parseMembers : Nat → List Char → Option (List (String × Json) × List Char)
  | 0, _ => none
  | f + 1, cs =>
    match cs with
    | '"' :: rest =>
      match parseStringBody f rest [] with
      | none => none
      | some (k, r1) =>
        match skipWs r1 with
        | ':' :: r2 =>
          match parseValue f (skipWs r2) with
          | none => none
          | some (v, r3) =>
            match skipWs r3 with
            | ',' :: r4 =>
              match parseMembers f (skipWs r4) with
              | some (ms, r5) => some ((k, v) :: ms, r5)
              | none => none
            | '}' :: r4 => some ([(k, v)], r4)
            | _ => none
        | _ => none
    | _ => none

end

/-- A whole JSON document: one value and nothing but whitespace after it. -/
def parseTop (fuel : Nat) (cs : List Char) : Option Json :=
  match parseValue fuel cs with
  | some (v, rest) => if (skipWs rest).isEmpty then some v else none
  | none => none

/-- `JSON.parse`: surrounding whitespace is insignificant in the JSON
grammar, modelled by trimming before the document parse; the fuel is a
function of the trimmed input, which the nesting depth never exceeds. -/
def jsonParse (s : String) : Option Json :=
  parseTop (2 * (trimL s.data).length + 8) (trimL s.data)

/-- The `SyntaxError` message `JSON.parse` raises on malformed input,
modelled after V8's classic format. -/
def jsonParseErrMsg (s : String) : String :=
  match s.data with
  | [] => "Unexpected end of JSON input"
  | c :: _ => "Unexpected token " ++ ⟨[c]⟩ ++ " in JSON at position 0"

/-- `Math.pow(2, i)` for the exponential backoff (exact for these ranges). -/
def pow2 : Nat → Int
  | 0 => 1
  | n + 1 => 2 * pow2 n

/-- What one run of a retry loop did: its outcome (`Except.ok none` models the
loop falling off the end, i.e. the JS function resolving `undefined`), how
many times the wrapped `fn` was invoked, and the delays slept in order. -/
structure RetryTrace (α : Type) where
  result : Except JsError (Option α)
  attempts : Nat
  sleeps : List Int

/-- Loop body of `retryWithBackoff` in `src/lib/inngest/function.js`:
`i` is the JS loop counter, `remaining + i + 1 = maxRetries` iterations are
left (so `remaining = 0` means `i === maxRetries - 1`).  On the last attempt
the error is rethrown before any classification; otherwise errors with HTTP
status 503 or 429 back off `initialDelay * 2 ** i` and retry, all other
errors are rethrown at once. -/
def retryBatchGo (outcomes : Nat → Except JsError α) (initialDelay : Int) :
    Nat → Nat → RetryTrace α
  | _, 0 => ⟨.ok none, 0, []⟩
  | i, remaining + 1 =>
    match outcomes i with
    | .ok v => ⟨.ok (some v), 1, []⟩
    | .error e =>
      if remaining == 0 then ⟨.error e, 1, []⟩
      else if e.status == some 503 || e.status == some 429 then
        let d := initialDelay * pow2 i
        let rest := retryBatchGo outcomes initialDelay (i + 1) remaining
        ⟨rest.result, rest.attempts + 1, d :: rest.sleeps⟩
      else ⟨.error e, 1, []⟩

/-- `retryWithBackoff(fn, maxRetries, initialDelay)` from
`src/lib/inngest/function.js`; `outcomes i` is what the `i`-th invocation of
`fn` settles to. -/
def retryWithBackoffBatch (outcomes : Nat → Except JsError α) (maxRetries : Int)
    (initialDelay : Int) : RetryTrace α :=
  retryBatchGo outcomes initialDelay 0 maxRetries.toNat

/-- Loop body of `retryWithBackoff` in the server-action module
(`src/unnamed/part_001`): an error is rethrown when this is the last attempt
or when its *message* contains neither `overloaded` nor `503`; otherwise the
loop backs off `baseDelay * 2 ** i` and retries. -/
def retryActionGo (outcomes : Nat → Except JsError α) (baseDelay : Int) :
    Nat → Nat → RetryTrace α
  | _, 0 => ⟨.ok none, 0, []⟩
  | i, remaining + 1 =>
    match outcomes i with
    | .ok v => ⟨.ok (some v), 1, []⟩
    | .error e =>
      let isLastRetry := remaining == 0
      let isOverloaded :=
        includesStr e.message ("overloaded") || includesStr e.message ("503")
      if isLastRetry || !isOverloaded then ⟨.error e, 1, []⟩
      else
        let d := baseDelay * pow2 i
        let rest := retryActionGo outcomes baseDelay (i + 1) remaining
        ⟨rest.result, rest.attempts + 1, d :: rest.sleeps⟩

/-- `retryWithBackoff(fn, maxRetries, baseDelay)` from `src/unnamed/part_001`. -/
def retryWithBackoffAction (outcomes : Nat → Except JsError α) (maxRetries : Int)
    (baseDelay : Int) : RetryTrace α :=
  retryActionGo outcomes baseDelay 0 maxRetries.toNat

/-- `getFallbackInsights(industry)` from `src/unnamed/part_001`: the static
fallback record (the argument is ignored by the source too). -/
def getFallbackInsights (_industry : String) : Json :=
  .obj
    [("salaryRanges", .arr
      [.obj [("role", .str "Entry Level"), ("min", .num 40000), ("max", .num 60000),
             ("median", .num 50000), ("location", .str "Global")],
       .obj [("role", .str "Mid Level"), ("min", .num 60000), ("max", .num 90000),
             ("median", .num 75000), ("location", .str "Global")],
       .obj [("role", .str "Senior Level"), ("min", .num 90000), ("max", .num 130000),
             ("median", .num 110000), ("location", .str "Global")],
       .obj [("role", .str "Lead/Manager"), ("min", .num 110000), ("max", .num 160000),
             ("median", .num 135000), ("location", .str "Global")],
       .obj [("role", .str "Director/VP"), ("min", .num 140000), ("max", .num 200000),
             ("median", .num 170000), ("location", .str "Global")]]),
     ("growthRate", .num 5),
     ("demandLevel", .str "MEDIUM"),
     ("topSkills", .arr
       [.str "Communication", .str "Problem Solving", .str "Technical Skills",
        .str "Teamwork", .str "Adaptability"]),
     ("marketOutlook", .str "POSITIVE"),
     ("keyTrends", .arr
       [.str "Digital Transformation", .str "Remote Work", .str "AI Integration",
        .str "Sustainability", .str "Data-Driven Decision Making"]),
     ("recommendedSkills", .arr
       [.str "Leadership", .str "Project Management", .str "Data Analysis",
        .str "Cloud Computing", .str "Agile Methodologies"])]

/-- The `fn` closure `generateAIInsights` hands to its retry wrapper:
invoke the remote model (`remote i` is the text of the `i`-th call or the
error it throws), strip fences, trim, and `JSON.parse` the result — a parse
failure surfaces as the thrown `SyntaxError`. -/
def genAttempt (remote : Nat → Except JsError String) (i : Nat) : Except JsError Json :=
  match remote i with
  | .error e => .error e
  | .ok text =>
    let cleaned := cleanText text
    match jsonParse cleaned with
    | some j => .ok j
    | none => .error ⟨none, jsonParseErrMsg cleaned⟩

/-- `generateAIInsights(industry)` from `src/unnamed/part_001`: the retry
wrapper runs with its default `maxRetries = 3`, `baseDelay = 1000`; any error
escaping it is caught and replaced by the static fallback record.  The
`Option` mirrors JS: `none` would be the (unreachable) `undefined` resolution
of the wrapper. -/
def generateAIInsights (industry : String) (remote : Nat → Except JsError String) :
    Option Json :=
  match (retryWithBackoffAction (genAttempt remote) 3 1000).result with
  | .ok v => v
  | .error _ => some (getFallbackInsights industry)

/-- One part of a Gemini response candidate's content; `text` may be absent
(`undefined`). -/
structure GenPart where
  text : Option String

/-- A candidate's `content`; `parts` may be absent. -/
structure GenContent where
  parts : Option (List GenPart)

/-- One response candidate; `content` may be absent. -/
structure GenCandidate where
  content : Option GenContent

/-- What `model.generateContent` resolves to in the batch job:
`res.response.candidates` may be absent. -/
structure GenResponse where
  candidates : Option (List GenCandidate)

/-- Dereferencing `undefined` raises a `TypeError` in JS; the model keeps one
generic value for it (it has no `status` and its message names no retryable
class). -/
def typeErr : JsError := ⟨none, "TypeError: cannot read properties of undefined"⟩

/-- `res.response.candidates[0].content.parts[0].text || ""` from the batch
job: every step on a missing value throws `TypeError`; only a present-but-
undefined `text` is rescued by `|| ""`. -/
def extractText (res : Option GenResponse) : Except JsError String :=
  match res with
  | none => .error typeErr
  | some r =>
    match r.candidates with
    | none => .error typeErr
    | some [] => .error typeErr
    | some (c :: _) =>
      match c.content with
      | none => .error typeErr
      | some content =>
        match content.parts with
        | none => .error typeErr
        | some [] => .error typeErr
        | some (p :: _) => .ok (p.text.getD "")

/-- The update `generateIndustryInsights` writes back for one industry:
the parsed insights spread into the row plus the two timestamps. -/
structure UpdateAction where
  industry : String
  insights : Json
  lastUpdated : Int
  nextUpdate : Int

/-- The per-industry step of `generateIndustryInsights`
(`src/lib/inngest/function.js`), with the retry bound left as a parameter
(the source passes 3): retry the remote call with `initialDelay = 2000`,
extract the first candidate's text, strip fences and trim, `JSON.parse`, and
update the row with `nextUpdate` seven days from now.  There is no `catch`:
every failure propagates out of the step. -/
def generateInsightsStepWith (maxRetries : Int)
    (remote : Nat → Except JsError GenResponse) (industry : String) (now : Int) :
    Except JsError UpdateAction :=
  match (retryWithBackoffBatch remote maxRetries 2000).result with
  | .error e => .error e
  | .ok res =>
    match extractText res with
    | .error e => .error e
    | .ok text =>
      let cleaned := cleanText text
      match jsonParse cleaned with
      | none => .error ⟨none, jsonParseErrMsg cleaned⟩
      | some insights =>
        .ok ⟨industry, insights, now, now + 7 * 24 * 60 * 60 * 1000⟩

/-- The per-industry step as the source runs it (`retryWithBackoff(fn, 3, 2000)`). -/
def generateInsightsStep (remote : Nat → Except JsError GenResponse)
    (industry : String) (now : Int) : Except JsError UpdateAction :=
  generateInsightsStepWith 3 remote industry now

/-- The user row `getIndustryInsights` loads: the industry key and the
possibly missing existing insight row. -/
structure DashUser where
  industry : String
  industryInsight : Option Json

/-- What `getIndustryInsights` returns: the existing row, or the row it
created with its computed `nextUpdate` timestamp. -/
inductive InsightOutcome where
  | existing (row : Json)
  | created (industry : String) (insights : Option Json) (nextUpdate : Int)

/-- `getIndustryInsights()` from `src/unnamed/part_001`: auth check, user
lookup, then create-if-absent — generation (which never throws) followed by a
`create` whose `nextUpdate` is seven days from now. -/
def getIndustryInsights (userId : Option String) (user : Option DashUser)
    (remote : Nat → Except JsError String) (now : Int) :
    Except JsError InsightOutcome :=
  match userId with
  | none => .error ⟨none, "Unauthorized"⟩
  | some _ =>
    match user with
    | none => .error ⟨none, "User not found"⟩
    | some u =>
      match u.industryInsight with
      | some row => .ok (.existing row)
      | none =>
        let insights := generateAIInsights u.industry remote
        .ok (.created u.industry insights (now + 7 * 24 * 60 * 60 * 1000))

/-- One candidate of the resume-improvement response; `finishReason` may be
absent. -/
structure ImpCandidate where
  finishReason : Option String

/-- What `model.generateContent` resolves to in `improveWithAI`: the
`response` object may be falsy, `candidates` absent, and `response.text()`
may return `undefined`. -/
structure ImpResponse where
  candidates : Option (List ImpCandidate)
  text : Option String

/-- One remote attempt in `improveWithAI`: the call either throws or
resolves (`ok none` models a falsy `result.response`). -/
inductive ImpOutcome where
  | thrown (e : JsError)
  | ok (resp : Option ImpResponse)

/-- The body of one `try` block of `improveWithAI`'s loop: missing response,
a first candidate finishing with `SAFETY`, and an empty or undefined
`text()?.trim()` all throw; otherwise the trimmed text is returned. -/
def improveAttempt (o : ImpOutcome) : Except JsError String :=
  match o with
  | .thrown e => .error e
  | .ok none => .error ⟨none, "No response received from AI"⟩
  | .ok (some resp) =>
    let safetyBlocked :=
      match resp.candidates with
      | some (c :: _) => c.finishReason == some "SAFETY"
      | _ => false
    if safetyBlocked then
      .error ⟨none, "Content was blocked by safety filters. Please try rephrasing."⟩
    else
      match resp.text with
      | none => .error ⟨none, "AI returned empty response"⟩
      | some s =>
        let t := trimStr s
        if t == "" then .error ⟨none, "AI returned empty response"⟩
        else .ok t

/-- What `improveWithAI`'s retry loop left behind: the successful text if any,
the last error caught, the number of attempts and the delays slept.  The
`catch` never inspects the error: *every* failure is retried until the
attempt budget runs out (`remaining = 0` is `attempt === maxRetries`),
sleeping `1000 * attempt` between attempts. -/
structure ImpLoopOut where
  success : Option String
  lastError : Option JsError
  attempts : Nat
  sleeps : List Int

/-- The `for (attempt = 1; attempt <= maxRetries; attempt++)` loop of
`improveWithAI`; `i` is `attempt - 1`. -/
def improveGo (outs : Nat → ImpOutcome) : Nat → Nat → ImpLoopOut
  | _, 0 => ⟨none, none, 0, []⟩
  | i, remaining + 1 =>
    match improveAttempt (outs i) with
    | .ok s => ⟨some s, none, 1, []⟩
    | .error e =>
      if remaining == 0 then ⟨none, some e, 1, []⟩
      else
        let rest := improveGo outs (i + 1) remaining
        ⟨rest.success, rest.lastError, rest.attempts + 1, (1000 : Int) * (i + 1 : Nat) :: rest.sleeps⟩

/-- The outcome of `improveWithAI` together with its observable retry
behaviour. -/
structure ImproveResult where
  result : Except JsError String
  attempts : Nat
  sleeps : List Int

/-- `improveWithAI({ current, type })` from `src/unnamed/part_001`: auth
check, user lookup, input validation *before* any remote call, then the
3-attempt loop; on exhaustion the last error's message is mapped to a
user-facing message by substring. -/
def improveWithAI (userId : Option String) (user : Option DashUser)
    (current : Option String) (outs : Nat → ImpOutcome) : ImproveResult :=
  match userId with
  | none => ⟨.error ⟨none, "Unauthorized"⟩, 0, []⟩
  | some _ =>
    match user with
    | none => ⟨.error ⟨none, "User not found"⟩, 0, []⟩
    | some _ =>
      match current with
      | none => ⟨.error ⟨none, "Please provide content to improve"⟩, 0, []⟩
      | some cur =>
        if trimStr cur == "" then
          ⟨.error ⟨none, "Please provide content to improve"⟩, 0, []⟩
        else
          let lo := improveGo outs 0 3
          match lo.success with
          | some s => ⟨.ok s, lo.attempts, lo.sleeps⟩
          | none =>
            let errorMessage := (lo.lastError.map JsError.message).getD "Unknown error"
            let mapped :=
              if includesStr errorMessage ("safety filters") then
                "Content was flagged by safety filters. Please rephrase your description."
              else if includesStr errorMessage ("quota") || includesStr errorMessage ("rate limit") then
                "API rate limit reached. Please wait a moment and try again."
              else if includesStr errorMessage ("network") || includesStr errorMessage ("fetch") then
                "Network error. Please check your connection and try again."
              else "Failed to improve content. Please try again."
            ⟨.error ⟨none, mapped⟩, lo.attempts, lo.sleeps⟩

/-- With at least one attempt in the budget, the server-action retry loop
never falls off the end: it returns a value or rethrows. -/
lemma retryActionGo_result_ne_none (outs : Nat → Except JsError α) (d : Int) :
    ∀ r i, 1 ≤ r → (retryActionGo outs d i r).result ≠ .ok none := by
  intro r
  induction r with
  | zero => intro i h; omega
  | succ n ih =>
    intro i _
    simp only [retryActionGo]
    cases houts : outs i with
    | ok v => simp
    | error e =>
      by_cases hlast : n = 0
      · simp [hlast]
      · by_cases hov :
          (includesStr e.message ("overloaded") || includesStr e.message ("503")) = true
        · have hne : (n == 0) = false := by simp [hlast]
          simp only [hne, hov, Bool.false_or, Bool.not_true, if_false]
          exact ih (i + 1) (by omega)
        · simp only [Bool.not_eq_true] at hov
          simp [hov, hlast]

/-- A value returned by the server-action retry loop is the value of one of
the wrapped invocations. -/
lemma retryActionGo_ok_origin (outs : Nat → Except JsError α) (d : Int) :
    ∀ r i v, (retryActionGo outs d i r).result = .ok (some v) → ∃ k, outs k = .ok v := by
  intro r
  induction r with
  | zero => intro i v h; simp [retryActionGo] at h
  | succ n ih =>
    intro i v h
    simp only [retryActionGo] at h
    cases houts : outs i with
    | ok w =>
      rw [houts] at h
      simp at h
      exact ⟨i, by rw [houts, h]⟩
    | error e =>
      rw [houts] at h
      by_cases hlast : n = 0
      · simp [hlast] at h
      · by_cases hov :
          (includesStr e.message ("overloaded") || includesStr e.message ("503")) = true
        · have hne : (n == 0) = false := by simp [hlast]
          simp only [hne, hov, Bool.false_or, Bool.not_true, if_false] at h
          exact ih (i + 1) v h
        · simp only [Bool.not_eq_true] at hov
          simp [hov, hlast] at h

/-- C2: `generateAIInsights` yields the parsed remote value or the static
fallback, never an exception. -/
theorem C2_thm (industry : String) (remote : Nat → Except JsError String) :
    generateAIInsights industry remote = some (getFallbackInsights industry) ∨
    ∃ i text j, remote i = .ok text ∧ jsonParse (cleanText text) = some j ∧
      generateAIInsights industry remote = some j := by
  unfold generateAIInsights
  cases hres : (retryWithBackoffAction (genAttempt remote) 3 1000).result with
  | error e => left; rfl
  | ok v =>
    cases v with
    | none =>
      exfalso
      have h3 : ((3 : Int)).toNat = 3 := rfl
      have := retryActionGo_result_ne_none (genAttempt remote) 1000 3 0 (by omega)
      rw [retryWithBackoffAction, h3] at hres
      exact this hres
    | some j =>
      right
      have h3 : ((3 : Int)).toNat = 3 := rfl
      rw [retryWithBackoffAction, h3] at hres
      obtain ⟨k, hk⟩ := retryActionGo_ok_origin (genAttempt remote) 1000 3 0 j hres
      unfold genAttempt at hk
      cases hrem : remote k with
      | error e => rw [hrem] at hk; exact absurd hk (by simp)
      | ok text =>
        rw [hrem] at hk
        dsimp only at hk
        cases hparse : jsonParse (cleanText text) with
        | none => rw [hparse] at hk; exact absurd hk (by simp)
        | some j' =>
          rw [hparse] at hk
          simp only [Except.ok.injEq] at hk
          subst hk
          exact ⟨k, text, j', hrem, hparse, rfl⟩

lemma rtrim_eq_rdropWhile (cs : List Char) : rtrim cs = cs.rdropWhile isWsChar := rfl

/-- Appending a newline does not change the trimmed text. -/
lemma trimL_concat_nl (cs : List Char) : trimL (cs ++ ['\n']) = trimL cs := by
  unfold trimL
  rw [rtrim_eq_rdropWhile, rtrim_eq_rdropWhile,
    List.rdropWhile_concat_pos _ _ _ (by decide)]

/-- A prefix of a `dropWhile`-fixed list is itself `dropWhile`-fixed. -/
lemma dropWhile_prefix_fixed (p : α → Bool) (x y : List α)
    (hv : List.dropWhile p (x ++ y) = x ++ y) : List.dropWhile p x = x := by
  cases x with
  | nil => rfl
  | cons a t =>
    rw [List.cons_append, List.dropWhile_cons] at hv
    by_cases hp : p a = true
    · exfalso
      rw [if_pos hp] at hv
      have hle := (List.dropWhile_suffix (l := t ++ y) p).length_le
      rw [hv] at hle
      simp at hle
    · rw [List.dropWhile_cons, if_neg hp]

/-- Trimming is idempotent. -/
lemma trimL_idem (cs : List Char) : trimL (trimL cs) = trimL cs := by
  unfold trimL ltrim
  rw [rtrim_eq_rdropWhile, rtrim_eq_rdropWhile]
  set w := cs.rdropWhile isWsChar with hw
  set u := w.dropWhile isWsChar with hu
  have hwrev : List.dropWhile isWsChar w.reverse = w.reverse := by
    rw [hw, List.rdropWhile, List.reverse_reverse, List.dropWhile_idempotent]
  obtain ⟨pre, hpre⟩ := List.dropWhile_suffix (l := w) isWsChar
  have hsplit : w.reverse = u.reverse ++ pre.reverse := by
    rw [← hpre, List.reverse_append, ← hu]
  rw [hsplit] at hwrev
  have hurev := dropWhile_prefix_fixed isWsChar u.reverse pre.reverse hwrev
  have hru : u.rdropWhile isWsChar = u := by
    rw [List.rdropWhile, hurev, List.reverse_reverse]
  rw [hru, List.dropWhile_idempotent]

/-- Whether the scan head of the list is an opening triple backtick. -/
def headTriple (cs : List Char) : Bool :=
  match cs with
  | c1 :: c2 :: c3 :: _ => c1 == '`' && c2 == '`' && c3 == '`'
  | _ => false

lemma stripGo_nil : ∀ f, stripGo f [] = [] := by
  intro f; cases f <;> rfl

/-- The fence scan copies a head character that opens no fence. -/
lemma stripGo_cons (f : Nat) (c : Char) (rest : List Char)
    (h : headTriple (c :: rest) = false) :
    stripGo (f + 1) (c :: rest) = c :: stripGo f rest := by
  rw [stripGo.eq_def]
  split
  · omega
  · simp_all
  · rename_i h1 h2
    injection h2 with hc hr
    subst hc; subst hr
    simp [headTriple] at h
  · rename_i heq _
    injection heq with h5
    subst h5
    rename_i heq2
    injection heq2 with h1 h2
    rw [h1, h2]

/-- A character after the needle-free head cannot complete a fence. -/
lemma tripleFree_cons (c : Char) (t : List Char) (h : tripleFree (c :: t) = true) :
    tripleFree t = true := by
  unfold tripleFree at *
  simp only [Bool.not_eq_true', includesL, Bool.or_eq_false_iff] at h ⊢
  exact h.2

/-- With the tail guarded by a non-backtick, a triple-free text never puts a
fence at the scan head. -/
lemma headTriple_of_tripleFree (c : Char) (cs rest : List Char)
    (h : tripleFree (c :: cs) = true) :
    headTriple (c :: (cs ++ '\n' :: rest)) = false := by
  cases cs with
  | nil => cases rest <;> simp [headTriple]
  | cons c2 t =>
    cases t with
    | nil => simp [headTriple]
    | cons c3 t2 =>
      simp only [headTriple, List.cons_append]
      by_contra hcon
      simp only [Bool.not_eq_false, Bool.and_eq_true, beq_iff_eq] at hcon
      obtain ⟨⟨h1, h2⟩, h3⟩ := hcon
      subst h1; subst h2; subst h3
      unfold tripleFree at h
      simp [includesL, List.isPrefixOf] at h

/-- Scanning a triple-free text followed by the closing fence copies the text
and the separating newline, and deletes the fence. -/
lemma stripGo_closing (cs : List Char) :
    ∀ f, cs.length + 2 ≤ f → tripleFree cs = true →
      stripGo f (cs ++ '\n' :: '`' :: '`' :: '`' :: []) = cs ++ ['\n'] := by
  induction cs with
  | nil =>
    intro f hf _
    match f, hf with
    | f + 2, _ =>
      have h1 : stripGo (f + 2) ('\n' :: '`' :: '`' :: '`' :: []) =
          '\n' :: stripGo f [] := rfl
      simp [h1, stripGo_nil]
  | cons c cs' ih =>
    intro f hf htf
    match f, hf with
    | f + 1, hf =>
      rw [List.cons_append,
        stripGo_cons f c (cs' ++ '\n' :: '`' :: '`' :: '`' :: [])
          (headTriple_of_tripleFree c cs' _ htf),
        ih f (by simp at hf ⊢; omega) (tripleFree_cons c cs' htf)]
      rfl

lemma wrap_data (t : String) : (wrapJsonFence t).data =
    '`' :: '`' :: '`' :: 'j' :: 's' :: 'o' :: 'n' :: '\n' ::
      (t.data ++ '\n' :: '`' :: '`' :: '`' :: []) := by
  show ("```json\n" ++ t ++ "\n```").data = _
  rw [String.data_append, String.data_append]
  have h1 : ("```json\n").data = ['`', '`', '`', 'j', 's', 'o', 'n', '\n'] := rfl
  have h2 : ("\n```").data = ['\n', '`', '`', '`'] := rfl
  rw [h1, h2]
  simp

/-- Stripping the fences off a wrapped triple-free text gives the text back
(with the trailing separator newline). -/
lemma stripFences_wrap (t : String) (htf : tripleFree t.data = true) :
    (stripFences (wrapJsonFence t)).data = t.data ++ ['\n'] := by
  show stripGo (wrapJsonFence t).data.length (wrapJsonFence t).data = _
  rw [wrap_data]
  have hlen : ('`' :: '`' :: '`' :: 'j' :: 's' :: 'o' :: 'n' :: '\n' ::
      (t.data ++ '\n' :: '`' :: '`' :: '`' :: [])).length = t.data.length + 12 := by
    simp
  rw [hlen]
  have hstep : stripGo (t.data.length + 12)
      ('`' :: '`' :: '`' :: 'j' :: 's' :: 'o' :: 'n' :: '\n' ::
        (t.data ++ '\n' :: '`' :: '`' :: '`' :: [])) =
      stripGo (t.data.length + 11) (t.data ++ '\n' :: '`' :: '`' :: '`' :: []) := rfl
  rw [hstep]
  exact stripGo_closing t.data (t.data.length + 11) (by omega) htf

/-- Cleaning a wrapped triple-free text is the same as trimming the text. -/
lemma cleanText_wrap (t : String) (htf : tripleFree t.data = true) :
    (cleanText (wrapJsonFence t)).data = trimL t.data := by
  show trimL (stripFences (wrapJsonFence t)).data = _
  rw [stripFences_wrap t htf, trimL_concat_nl]

/-- C7 counterexample: for a JSON text that itself contains a triple
backtick, cleaning the fence-wrapped text parses to a *different* value than
parsing the text directly — the global replace also eats the inner backticks. -/
theorem C7_cex : jsonParse (cleanText (wrapJsonFence ("\"```\""))) ≠ jsonParse ("\"```\"") := by
  intro h
  rw [show jsonParse (cleanText (wrapJsonFence ("\"```\""))) = some (.str "") from rfl,
    show jsonParse ("\"```\"") = some (.str "```") from rfl] at h
  injection h with h1
  injection h1 with h2
  exact absurd (congrArg String.data h2) (by decide)

/-- C7 (amended): for every text free of triple backticks, cleaning the
fence-wrapped text parses to exactly the same JSON value as parsing the text
directly. -/
theorem C7_thm (t : String) (htf : tripleFree t.data = true) :
    jsonParse (cleanText (wrapJsonFence t)) = jsonParse t := by
  unfold jsonParse
  rw [cleanText_wrap t htf, trimL_idem]

/-- Witness for C7 at a concrete fence-free JSON object. -/
theorem C7_witness :
    tripleFree ("\x7b\"a\":true\x7d").data = true ∧
      jsonParse (cleanText (wrapJsonFence ("\x7b\"a\":true\x7d"))) =
        jsonParse ("\x7b\"a\":true\x7d") :=
  ⟨by decide, C7_thm _ (by decide)⟩

/-- C1 counterexample: when every remote call of the scheduled job's step
fails with a retryable 503, the step *propagates the error* — there is no
static fallback anywhere in `generateIndustryInsights`. -/
theorem C1_cex :
    generateInsightsStep (fun _ => .error ⟨some 503, "The model is overloaded"⟩)
      ("technology") 0 = .error ⟨some 503, "The model is overloaded"⟩ := rfl

/-- C1 (amended): the scheduled job's step fails — it does not fall back —
both when the retries exhaust on a retryable error and when the response text
fails to parse; the static-fallback-on-exhaustion behaviour belongs to
`generateAIInsights` alone. -/
theorem C1_thm :
    (∀ (e : JsError) (industry : String) (now : Int),
        e.status = some 503 ∨ e.status = some 429 →
        generateInsightsStep (fun _ => .error e) industry now = .error e) ∧
    (∀ (resp : GenResponse) (text : String) (industry : String) (now : Int),
        extractText (some resp) = .ok text →
        jsonParse (cleanText text) = none →
        generateInsightsStep (fun _ => .ok resp) industry now =
          .error ⟨none, jsonParseErrMsg (cleanText text)⟩) := by
  constructor
  · intro e industry now h
    have hcond : (e.status == some 503 || e.status == some 429) = true := by
      rcases h with h | h <;> simp [h]
    simp [generateInsightsStep, generateInsightsStepWith, retryWithBackoffBatch,
      retryBatchGo, hcond]
  · intro resp text industry now hext hparse
    simp [generateInsightsStep, generateInsightsStepWith, retryWithBackoffBatch,
      retryBatchGo, hext, hparse]

/-- Witness for C1 at a concrete always-503 remote and a concrete
unparseable response. -/
theorem C1_witness :
    generateInsightsStep (fun _ => .error ⟨some 503, "overloaded"⟩) ("retail") 5 =
        .error ⟨some 503, "overloaded"⟩ ∧
    generateInsightsStep
        (fun _ => .ok ⟨some [⟨some ⟨some [⟨some ("not json")⟩]⟩⟩]⟩) ("retail") 5 =
      .error ⟨none, jsonParseErrMsg (cleanText ("not json"))⟩ :=
  ⟨C1_thm.1 ⟨some 503, "overloaded"⟩ ("retail") 5 (Or.inl rfl),
   C1_thm.2 ⟨some [⟨some ⟨some [⟨some ("not json")⟩]⟩⟩]⟩ ("not json") ("retail") 5 rfl rfl⟩

/-- C3 counterexample: in the fallback-mode path a 429-status failure is
*not* retried — its message names neither `overloaded` nor `503`, so the
wrapped call runs exactly once, not three times. -/
theorem C3_cex :
    (retryWithBackoffAction
        (genAttempt (fun _ => .error ⟨some 429, "Too Many Requests"⟩)) 3 1000).attempts = 1 ∧
      generateAIInsights ("technology") (fun _ => .error ⟨some 429, "Too Many Requests"⟩) =
        some (getFallbackInsights ("technology")) :=
  ⟨rfl, rfl⟩

/-- C3 (amended): under always-429 failures with `maxRetries = 3`,
`baseDelayMs = 1000`, the *batch* wrapper makes exactly 3 attempts with
sleeps 1000 ms and 2000 ms and rethrows the 429 error, while the
fallback-mode caller makes a single attempt (its wrapper retries only on the
`overloaded`/`503` message substrings) and then returns the static fallback. -/
theorem C3_thm :
    (∀ (msg : String),
        retryWithBackoffBatch
            (fun _ => (.error ⟨some 429, msg⟩ : Except JsError GenResponse)) 3 1000 =
          ⟨.error ⟨some 429, msg⟩, 3, [1000, 2000]⟩) ∧
    (∀ (industry msg : String),
        (includesStr msg ("overloaded") || includesStr msg ("503")) = false →
        (retryWithBackoffAction
            (genAttempt (fun _ => .error ⟨some 429, msg⟩)) 3 1000).attempts = 1 ∧
          generateAIInsights industry (fun _ => .error ⟨some 429, msg⟩) =
            some (getFallbackInsights industry)) := by
  constructor
  · intro msg
    simp [retryWithBackoffBatch, retryBatchGo, pow2]
  · intro industry msg hov
    have hatt : ∀ i, genAttempt (fun _ => .error ⟨some 429, msg⟩) i =
        .error ⟨some 429, msg⟩ := fun _ => rfl
    constructor
    · simp [retryWithBackoffAction, retryActionGo, hatt, hov]
    · simp [generateAIInsights, retryWithBackoffAction, retryActionGo, hatt, hov]

/-- Witness for C3 at the concrete message `Too Many Requests`. -/
theorem C3_witness :
    retryWithBackoffBatch
        (fun _ => (.error ⟨some 429, "Too Many Requests"⟩ : Except JsError GenResponse)) 3 1000 =
      ⟨.error ⟨some 429, "Too Many Requests"⟩, 3, [1000, 2000]⟩ ∧
    (includesStr ("Too Many Requests") ("overloaded") ||
        includesStr ("Too Many Requests") ("503")) = false ∧
    (retryWithBackoffAction
        (genAttempt (fun _ => .error ⟨some 429, "Too Many Requests"⟩)) 3 1000).attempts = 1 ∧
    generateAIInsights ("retail") (fun _ => .error ⟨some 429, "Too Many Requests"⟩) =
      some (getFallbackInsights ("retail")) :=
  ⟨C3_thm.1 ("Too Many Requests"), by decide,
   (C3_thm.2 ("retail") ("Too Many Requests") (by decide)).1,
   (C3_thm.2 ("retail") ("Too Many Requests") (by decide)).2⟩

/-- With at least one attempt in the budget, `improveWithAI`'s loop invokes
the remote call at least once. -/
lemma improveGo_attempts_pos (outs : Nat → ImpOutcome) :
    ∀ r i, 1 ≤ r → 1 ≤ (improveGo outs i r).attempts := by
  intro r
  induction r with
  | zero => intro i h; omega
  | succ n _ =>
    intro i _
    simp only [improveGo]
    cases improveAttempt (outs i) with
    | ok s => simp
    | error e =>
      by_cases hn : n = 0
      · simp [hn]
      · have hne : (n == 0) = false := by simp [hn]
        simp [hne]

/-- The outcome of a safety-blocked attempt inside `improveWithAI`'s loop. -/
def safetyBlockedErr : JsError :=
  ⟨none, "Content was blocked by safety filters. Please try rephrasing."⟩

/-- C4 counterexample: a response whose first candidate finished with
`SAFETY` is retried like every other failure — with the constant 3-attempt
budget the loop invokes the remote call three times (two *additional*
attempts after the first blocked one, with sleeps 1000 ms and 2000 ms) and
only then surfaces the mapped safety message. -/
theorem C4_cex :
    improveWithAI (some ("user-1")) (some ⟨"technology", none⟩) (some ("my draft"))
        (fun _ => .ok (some ⟨some [⟨some ("SAFETY")⟩], some ("improved")⟩)) =
      ⟨.error ⟨none,
          "Content was flagged by safety filters. Please rephrase your description."⟩,
        3, [1000, 2000]⟩ := rfl

/-- C4 (amended): whenever the first attempt of a validated `improveWithAI`
call is safety-blocked, the loop does *not* stop: at least one further remote
attempt happens (the `catch` never inspects the error class). -/
theorem C4_thm (userId : String) (user : DashUser) (cur : String)
    (outs : Nat → ImpOutcome) (hcur : trimStr cur ≠ "")
    (hblock : improveAttempt (outs 0) = .error safetyBlockedErr) :
    2 ≤ (improveWithAI (some userId) (some user) (some cur) outs).attempts := by
  have hne : (trimStr cur == "") = false := by
    simp [hcur]
  have hrest := improveGo_attempts_pos outs 2 1 (by omega)
  have hloop : (improveGo outs 0 3).attempts = (improveGo outs 1 2).attempts + 1 := by
    simp [improveGo, hblock]
  simp only [improveWithAI, hne, Bool.false_eq_true, if_false]
  cases hsucc : (improveGo outs 0 3).success <;> simp [hsucc, hloop] <;> omega

/-- Witness for C4 at a concrete always-safety-blocked remote. -/
theorem C4_witness :
    2 ≤ (improveWithAI (some ("user-2")) (some ⟨"retail", none⟩) (some ("draft two"))
        (fun _ => .ok (some ⟨some [⟨some ("SAFETY")⟩], some ("improved")⟩))).attempts :=
  C4_thm ("user-2") ⟨"retail", none⟩ ("draft two")
    (fun _ => .ok (some ⟨some [⟨some ("SAFETY")⟩], some ("improved")⟩))
    (by decide) rfl

/-- C5 counterexample: in the fallback-mode path a response that fails to
parse is *not* retried — the `SyntaxError` message names neither
`overloaded` nor `503`, so the wrapped call runs exactly once and the static
fallback is returned. -/
theorem C5_cex :
    (retryWithBackoffAction
        (genAttempt (fun _ => .ok ("I am sorry."))) 3 1000).attempts = 1 ∧
      generateAIInsights ("technology") (fun _ => .ok ("I am sorry.")) =
        some (getFallbackInsights ("technology")) :=
  ⟨rfl, rfl⟩

/-- C5 (amended): a first-response parse failure whose `SyntaxError` message
contains neither `overloaded` nor `503` is thrown without any further
attempt; `generateAIInsights` then catches it and returns the static
fallback.  (In the batch job the parse runs outside the retry wrapper
altogether, so there it cannot trigger a retry either.) -/
theorem C5_thm (remote : Nat → Except JsError String) (t industry : String)
    (h0 : remote 0 = .ok t) (hparse : jsonParse (cleanText t) = none)
    (hov : (includesStr (jsonParseErrMsg (cleanText t)) ("overloaded") ||
        includesStr (jsonParseErrMsg (cleanText t)) ("503")) = false) :
    (retryWithBackoffAction (genAttempt remote) 3 1000).attempts = 1 ∧
      generateAIInsights industry remote = some (getFallbackInsights industry) := by
  have hatt : genAttempt remote 0 = .error ⟨none, jsonParseErrMsg (cleanText t)⟩ := by
    unfold genAttempt
    rw [h0]
    dsimp only
    rw [hparse]
  constructor
  · simp [retryWithBackoffAction, retryActionGo, hatt, hov]
  · simp [generateAIInsights, retryWithBackoffAction, retryActionGo, hatt, hov]

/-- Witness for C5 at the concrete response `I am sorry.`. -/
theorem C5_witness :
    (retryWithBackoffAction
        (genAttempt (fun _ => .ok ("I am sorry, I cannot."))) 3 1000).attempts = 1 ∧
      generateAIInsights ("retail") (fun _ => .ok ("I am sorry, I cannot.")) =
        some (getFallbackInsights ("retail")) :=
  C5_thm (fun _ => .ok ("I am sorry, I cannot.")) ("I am sorry, I cannot.") ("retail")
    rfl rfl (by decide)

/-- C6 counterexample: a 503-status failure whose message happens to contain
neither `503` nor `overloaded` is rethrown at once by the fallback-mode
wrapper — one invocation, no sleeps, no success — because that wrapper
classifies by message substring, never by status. -/
theorem C6_cex :
    retryWithBackoffAction
        (fun i => if i < 2 then .error ⟨some 503, "Service Unavailable"⟩
          else .ok Json.null) 3 1000 =
      ⟨.error ⟨some 503, "Service Unavailable"⟩, 1, []⟩ := rfl

/-- C6 (amended): with failures on attempts 1–2 and success on attempt 3
under `maxRetries = 3`, success short-circuits after exactly 3 invocations
with sleeps `baseDelay·1` and `baseDelay·2` — in the batch wrapper whenever
the two errors carry status 503, and in the fallback-mode wrapper whenever
the two error *messages* contain `503` or `overloaded`. -/
theorem C6_thm :
    (∀ (e1 e2 : JsError) (v : GenResponse) (d : Int),
        e1.status = some 503 → e2.status = some 503 →
        retryWithBackoffBatch
            (fun i => if i == 0 then .error e1 else if i == 1 then .error e2 else .ok v)
            3 d =
          ⟨.ok (some v), 3, [d * 1, d * 2]⟩) ∧
    (∀ (e1 e2 : JsError) (v : Json) (d : Int),
        (includesStr e1.message ("overloaded") || includesStr e1.message ("503")) = true →
        (includesStr e2.message ("overloaded") || includesStr e2.message ("503")) = true →
        retryWithBackoffAction
            (fun i => if i == 0 then .error e1 else if i == 1 then .error e2 else .ok v)
            3 d =
          ⟨.ok (some v), 3, [d * 1, d * 2]⟩) := by
  constructor
  · intro e1 e2 v d h1 h2
    simp [retryWithBackoffBatch, retryBatchGo, h1, h2, pow2, mul_comm]
  · intro e1 e2 v d h1 h2
    simp [retryWithBackoffAction, retryActionGo, h1, h2, pow2, mul_comm]

/-- Witness for C6 at concrete overload errors and delay 1000. -/
theorem C6_witness :
    retryWithBackoffBatch
        (fun i => if i == 0 then .error ⟨some 503, "Service Unavailable"⟩
          else if i == 1 then .error ⟨some 503, "overloaded"⟩
          else .ok (⟨none⟩ : GenResponse)) 3 1000 =
      ⟨.ok (some ⟨none⟩), 3, [1000 * 1, 1000 * 2]⟩ ∧
    retryWithBackoffAction
        (fun i => if i == 0 then .error ⟨some 503, "[503 Service Unavailable]"⟩
          else if i == 1 then .error ⟨none, "the model is overloaded"⟩
          else .ok Json.null) 3 1000 =
      ⟨.ok (some Json.null), 3, [1000 * 1, 1000 * 2]⟩ :=
  ⟨C6_thm.1 ⟨some 503, "Service Unavailable"⟩ ⟨some 503, "overloaded"⟩ ⟨none⟩ 1000 rfl rfl,
   C6_thm.2 ⟨some 503, "[503 Service Unavailable]"⟩ ⟨none, "the model is overloaded"⟩
     Json.null 1000 (by decide) (by decide)⟩

/-- C8: both persistence paths stamp `nextUpdate` exactly seven days
(7·24·60·60·1000 ms) past the current time — the weekly job's update and the
dashboard's create-if-absent. -/
theorem C8_thm :
    (∀ (remote : Nat → Except JsError GenResponse) (industry : String) (now : Int)
        (act : UpdateAction),
        generateInsightsStep remote industry now = .ok act →
        act.nextUpdate = now + 7 * 24 * 60 * 60 * 1000) ∧
    (∀ (userId : Option String) (user : Option DashUser)
        (remote : Nat → Except JsError String) (now : Int) (industry : String)
        (ins : Option Json) (nu : Int),
        getIndustryInsights userId user remote now = .ok (.created industry ins nu) →
        nu = now + 7 * 24 * 60 * 60 * 1000) := by
  constructor
  · intro remote industry now act h
    unfold generateInsightsStep generateInsightsStepWith at h
    split at h
    · exact absurd h (by simp)
    · split at h
      · exact absurd h (by simp)
      · dsimp only at h
        split at h
        · exact absurd h (by simp)
        · simp only [Except.ok.injEq] at h
          rw [← h]
  · intro userId user remote now industry ins nu h
    unfold getIndustryInsights at h
    split at h
    · exact absurd h (by simp)
    · split at h
      · exact absurd h (by simp)
      · split at h
        · simp at h
        · simp only [Except.ok.injEq, InsightOutcome.created.injEq] at h
          exact h.2.2.symm

/-- Witness for C8: a successful weekly update and a fallback-backed create,
both at `now = 5`. -/
theorem C8_witness :
    (⟨"technology", Json.obj [], 5, 5 + 7 * 24 * 60 * 60 * 1000⟩ :
        UpdateAction).nextUpdate = 5 + 7 * 24 * 60 * 60 * 1000 ∧
      (5 + 7 * 24 * 60 * 60 * 1000 : Int) = 5 + 7 * 24 * 60 * 60 * 1000 :=
  ⟨C8_thm.1 (fun _ => .ok ⟨some [⟨some ⟨some [⟨some ("\x7b\x7d")⟩]⟩⟩]⟩) ("technology") 5
      ⟨"technology", Json.obj [], 5, 5 + 7 * 24 * 60 * 60 * 1000⟩ rfl,
   C8_thm.2 (some ("user-3")) (some ⟨"finance", none⟩) (fun _ => .error ⟨none, "down"⟩) 5
      ("finance") (some (getFallbackInsights ("finance"))) (5 + 7 * 24 * 60 * 60 * 1000) rfl⟩

/-- C9: with a non-positive retry budget the batch wrapper's loop body never
runs — the promise resolves `undefined` after zero invocations of the
wrapped call — and the step then dies dereferencing that `undefined` with a
`TypeError`, not with a classified error or a fallback. -/
theorem C9_thm (maxRetries : Int) (h : maxRetries ≤ 0) :
    (∀ (outcomes : Nat → Except JsError GenResponse) (d : Int),
        retryWithBackoffBatch outcomes maxRetries d = ⟨.ok none, 0, []⟩) ∧
    (∀ (remote : Nat → Except JsError GenResponse) (industry : String) (now : Int),
        generateInsightsStepWith maxRetries remote industry now = .error typeErr) := by
  have h0 : maxRetries.toNat = 0 := Int.toNat_of_nonpos h
  constructor
  · intro outcomes d
    rw [retryWithBackoffBatch, h0]
    rfl
  · intro remote industry now
    unfold generateInsightsStepWith
    rw [retryWithBackoffBatch, h0]
    rfl

/-- Witness for C9 at `maxRetries = 0` with a remote that would succeed if
it were ever called. -/
theorem C9_witness :
    retryWithBackoffBatch (fun _ => (.ok ⟨none⟩ : Except JsError GenResponse)) 0 1000 =
        ⟨.ok none, 0, []⟩ ∧
      generateInsightsStepWith 0 (fun _ => .ok ⟨none⟩) ("technology") 0 = .error typeErr :=
  ⟨(C9_thm 0 (by omega)).1 (fun _ => .ok ⟨none⟩) 1000,
   (C9_thm 0 (by omega)).2 (fun _ => .ok ⟨none⟩) ("technology") 0⟩

/-- C10: `improveWithAI` validates the `current` argument right after the
auth and user lookups: an absent, empty or whitespace-only input throws
`Please provide content to improve` with zero remote attempts and zero
sleeps. -/
theorem C10_thm (userId : String) (user : DashUser) (outs : Nat → ImpOutcome)
    (current : Option String)
    (h : current = none ∨ ∃ s, current = some s ∧ trimStr s = "") :
    improveWithAI (some userId) (some user) current outs =
      ⟨.error ⟨none, "Please provide content to improve"⟩, 0, []⟩ := by
  rcases h with h | ⟨s, hs, htrim⟩
  · rw [h]
    rfl
  · rw [hs]
    simp [improveWithAI, htrim]

/-- Witness for C10 at a whitespace-only input. -/
theorem C10_witness :
    improveWithAI (some ("user-4")) (some ⟨"technology", none⟩) (some ("   "))
        (fun _ => .thrown ⟨none, "never called"⟩) =
      ⟨.error ⟨none, "Please provide content to improve"⟩, 0, []⟩ :=
  C10_thm ("user-4") ⟨"technology", none⟩ (fun _ => .thrown ⟨none, "never called"⟩)
    (some ("   ")) (Or.inr ⟨"   ", rfl, rfl⟩)
